import Mathlib

/-!
Verification development for the SOVREN B200 inference engine
(`src/sovren_b200_engine/src/inference_engine.{h,cpp}`).

The engine is compiled with `CUDA_AVAILABLE 0` (the header forces the mock
branch when `__CUDACC__` is absent), so the executable paths are the CPU
branches of every `#if CUDA_AVAILABLE` split; those are what we embed here.
The in-tree `std::` shims in `inference_engine.h` are compilation stand-ins
for the real standard containers; the program logic is written against the
standard container semantics (`std::unordered_map` with unique keys,
`std::vector::resize(n, v)` preserving existing elements and filling new
ones), and that is the semantics embedded below.

Machine integers: `size_t` values are modelled as `Nat` reduced modulo
`2 ^ 64` at every arithmetic step, matching unsigned wraparound.
`float` data that the stubbed code merely stores or copies (it performs no
floating-point arithmetic: the only float values produced are literal
`0.0f` fills and copies of caller data) is modelled exactly over `Rat`.
-/

namespace Sovren

/-- The modulus of `size_t` (64-bit unsigned) arithmetic. -/
def U64 : Nat := 2 ^ 64

/-- Structure `ModelConfig` from `inference_engine.h` (integral fields as `Nat`,
floating fields as exact rationals). -/
structure ModelConfig where
  vocab_size : Nat
  hidden_size : Nat
  intermediate_size : Nat
  num_hidden_layers : Nat
  num_attention_heads : Nat
  num_key_value_heads : Nat
  max_position_embeddings : Nat
  rms_norm_eps : Rat
  rope_theta : Rat
  rope_scaling : Nat
  deriving DecidableEq

/-- The default member initializers of `ModelConfig` in `inference_engine.h`.
The engine's `config_` member is default-initialized and never reassigned
anywhere in the source, so this is the configuration the engine uses. -/
def default_model_config : ModelConfig :=
  { vocab_size := 152064
    hidden_size := 8192
    intermediate_size := 29568
    num_hidden_layers := 80
    num_attention_heads := 64
    num_key_value_heads := 8
    max_position_embeddings := 32768
    rms_norm_eps := 1 / 1000000
    rope_theta := 1000000
    rope_scaling := 1 }

/-- Field `tensor_parallel_size_` as set by the `SOVRENInferenceEngine`
constructor (initializer list, `inference_engine.cpp` line 28); it is never
reassigned. -/
def tensor_parallel_size_init : Nat := 1

/-- Field `pipeline_parallel_size_` as set by the constructor. -/
def pipeline_parallel_size_init : Nat := 1

/-!
## Device memory allocator state

`memory_map_ : std::unordered_map<void*, size_t>` is embedded as an
association list of (pointer, size) pairs; pointers are modelled as `Nat`
with `0` playing the role of `nullptr`.  `total_memory_allocated_ : size_t`
is a `Nat` kept below `2 ^ 64`.
-/

/-- The memory-management state of `SOVRENInferenceEngine`:
`memory_map_` and `total_memory_allocated_`. -/
structure MemState where
  memory_map : List (Nat × Nat)
  total_memory_allocated : Nat
  deriving DecidableEq

/-- The constructor's initial memory state: empty map,
`total_memory_allocated_(0)`. -/
def initMemState : MemState := ⟨[], 0⟩

/-- The keys (pointers) of the memory map. -/
def keysOf (m : List (Nat × Nat)) : List Nat := m.map Prod.fst

/-- Sum of the recorded allocation sizes in the memory map. -/
def sumSizes (m : List (Nat × Nat)) : Nat := (m.map Prod.snd).sum

/-- Lookup `memory_map_.find(ptr)`: the size recorded for a pointer, if present. -/
def mapFind (p : Nat) : List (Nat × Nat) → Option Nat
  | [] => none
  | (q, sz) :: rest => if q = p then some sz else mapFind p rest

/-- Removal `memory_map_.erase(it)`: remove the (unique) entry for a pointer. -/
def mapErase (p : Nat) : List (Nat × Nat) → List (Nat × Nat)
  | [] => []
  | (q, sz) :: rest => if q = p then rest else (q, sz) :: mapErase p rest

/-- Getter `get_memory_usage()`: returns `total_memory_allocated_`. -/
def get_memory_usage (s : MemState) : Nat := s.total_memory_allocated

/-- The result of the host `malloc(size)` call inside
`allocate_gpu_memory`.  `grant` is the oracle choice of the host allocator:
`none` models `malloc` returning `NULL`; `some p` models it returning the
address `p`.  A real `malloc` never returns the null address and never
returns an address that is currently live (every key of `memory_map_` is a
live, not-yet-freed `malloc` result), so grants violating that contract are
not `malloc` behaviours and are mapped to failure. -/
def malloc_result (s : MemState) (grant : Option Nat) : Option Nat :=
  match grant with
  | none => none
  | some p => if p ≠ 0 ∧ mapFind p s.memory_map = none then some p else none

/-- Function `SOVRENInferenceEngine::allocate_gpu_memory(size, device_id)`, CPU path
(`inference_engine.cpp` lines 87-94):
`void* ptr = malloc(size); if (ptr) { total_memory_allocated_ += size;
memory_map_[ptr] = size; } return ptr;`.
The `device_id` argument is ignored by the CPU path, as in the source. -/
def allocate_gpu_memory (size device_id : Nat) (grant : Option Nat)
    (s : MemState) : Option Nat × MemState :=
  match malloc_result s grant with
  | none => (none, s)
  | some p =>
    (some p,
      ⟨(p, size % U64) :: s.memory_map,
       (s.total_memory_allocated + size % U64) % U64⟩)

/-- The observable outcome of one `free_gpu_memory` call.  The source
function returns `void`; `freed`, `noopNull` and `noopUnknown` record which
of its three control-flow paths ran.  `invalidHandle` is the failure the
spec's error taxonomy (§7) prescribes for a non-outstanding handle; it is
included so that the spec's contract can be stated, and the source never
produces it. -/
inductive FreeOutcome where
  | freed
  | noopNull
  | noopUnknown
  | invalidHandle
  deriving DecidableEq

/-- Function `SOVRENInferenceEngine::free_gpu_memory(ptr)`, CPU path
(`inference_engine.cpp` lines 98-111):
`if (!ptr) return; auto it = memory_map_.find(ptr);
if (it != memory_map_.end()) { total_memory_allocated_ -= it->second;
memory_map_.erase(it); free(ptr); }`.
The `size_t` subtraction wraps modulo `2 ^ 64`; since the state keeps
`total_memory_allocated_ < 2 ^ 64` and every recorded size `< 2 ^ 64`, the
wrapping form `(total + (2 ^ 64 - sz)) % 2 ^ 64` is exactly C's
`total - sz`. -/
def free_gpu_memory (p : Nat) (s : MemState) : FreeOutcome × MemState :=
  if p = 0 then (FreeOutcome.noopNull, s)
  else
    match mapFind p s.memory_map with
    | some sz =>
      (FreeOutcome.freed,
        ⟨mapErase p s.memory_map,
         (s.total_memory_allocated + (U64 - sz)) % U64⟩)
    | none => (FreeOutcome.noopUnknown, s)

/-- Function `SOVRENInferenceEngine::cleanup()` (`inference_engine.cpp` lines
206-223): iterates over `memory_map_` calling `free(pair.first)` on every
entry, then `memory_map_.clear()` and `total_memory_allocated_ = 0`.
Returns the list of pointers passed to the host `free`, in iteration
order, together with the new state. -/
def cleanup (s : MemState) : List Nat × MemState :=
  (keysOf s.memory_map, ⟨[], 0⟩)

/-- One allocator-facing call on the engine. -/
inductive MemOp where
  | alloc (size device_id : Nat) (grant : Option Nat)
  | free (p : Nat)
  | clean
  deriving DecidableEq

/-- State transition of one allocator call. -/
def memStep (s : MemState) (op : MemOp) : MemState :=
  match op with
  | MemOp.alloc size d g => (allocate_gpu_memory size d g s).2
  | MemOp.free p => (free_gpu_memory p s).2
  | MemOp.clean => (cleanup s).2

/-- The memory state after a sequence of allocator calls, starting from the
freshly constructed engine. -/
def runOps (ops : List MemOp) : MemState := ops.foldl memStep initMemState

/-- Bookkeeping invariant of the allocator: the counter equals the sum of
the recorded sizes (as `size_t` arithmetic), the map's keys are distinct
live pointers, the null pointer is never a key, and every recorded size is
a `size_t` value. -/
def MemInv (s : MemState) : Prop :=
  s.total_memory_allocated = sumSizes s.memory_map % U64 ∧
  (keysOf s.memory_map).Nodup ∧
  (0 : Nat) ∉ keysOf s.memory_map ∧
  ∀ e ∈ s.memory_map, e.2 < U64

/-!
## Association-list lemmas
-/

theorem mapFind_eq_none_iff (p : Nat) (m : List (Nat × Nat)) :
    mapFind p m = none ↔ p ∉ keysOf m := by
  induction m with
  | nil => simp [mapFind, keysOf]
  | cons e rest ih =>
    obtain ⟨q, sz⟩ := e
    by_cases hq : q = p
    · subst hq
      simp [mapFind, keysOf]
    · simp only [mapFind, if_neg hq, keysOf, List.map_cons, List.mem_cons]
      rw [ih]
      simp only [keysOf]
      constructor
      · intro h hmem
        rcases hmem with h1 | h2
        · exact hq h1.symm
        · exact h h2
      · intro h hmem
        exact h (Or.inr hmem)

theorem mapFind_mem (p sz : Nat) (m : List (Nat × Nat))
    (h : mapFind p m = some sz) : (p, sz) ∈ m := by
  induction m with
  | nil => simp [mapFind] at h
  | cons e rest ih =>
    obtain ⟨q, s'⟩ := e
    by_cases hq : q = p
    · subst hq
      simp only [mapFind, eq_self_iff_true, if_true, Option.some.injEq] at h
      subst h
      exact List.mem_cons_self _ _
    · simp only [mapFind, if_neg hq] at h
      exact List.mem_cons_of_mem _ (ih h)

theorem sumSizes_cons (p sz : Nat) (m : List (Nat × Nat)) :
    sumSizes ((p, sz) :: m) = sz + sumSizes m := by
  simp [sumSizes]

theorem le_sumSizes_of_mapFind (p sz : Nat) (m : List (Nat × Nat))
    (h : mapFind p m = some sz) : sz ≤ sumSizes m := by
  induction m with
  | nil => simp [mapFind] at h
  | cons e rest ih =>
    obtain ⟨q, s'⟩ := e
    rw [sumSizes_cons]
    by_cases hq : q = p
    · subst hq
      simp only [mapFind, eq_self_iff_true, if_true, Option.some.injEq] at h
      omega
    · simp only [mapFind, if_neg hq] at h
      have := ih h
      omega

theorem sumSizes_mapErase (p sz : Nat) (m : List (Nat × Nat))
    (h : mapFind p m = some sz) :
    sumSizes (mapErase p m) = sumSizes m - sz := by
  induction m with
  | nil => simp [mapFind] at h
  | cons e rest ih =>
    obtain ⟨q, s'⟩ := e
    by_cases hq : q = p
    · subst hq
      simp only [mapFind, eq_self_iff_true, if_true, Option.some.injEq] at h
      subst h
      simp only [mapErase, eq_self_iff_true, if_true, sumSizes_cons]
      omega
    · simp only [mapFind, if_neg hq] at h
      have hle := le_sumSizes_of_mapFind p sz rest h
      simp only [mapErase, if_neg hq, sumSizes_cons, ih h]
      omega

theorem keysOf_mapErase_subset (p x : Nat) (m : List (Nat × Nat))
    (h : x ∈ keysOf (mapErase p m)) : x ∈ keysOf m := by
  induction m with
  | nil => simpa [mapErase, keysOf] using h
  | cons e rest ih =>
    obtain ⟨q, s'⟩ := e
    by_cases hq : q = p
    · simp only [mapErase, if_pos hq] at h
      exact List.mem_cons_of_mem _ h
    · simp only [mapErase, if_neg hq, keysOf, List.map_cons, List.mem_cons] at h ⊢
      rcases h with h | h
      · exact Or.inl h
      · exact Or.inr (ih h)

theorem nodup_keysOf_mapErase (p : Nat) (m : List (Nat × Nat))
    (h : (keysOf m).Nodup) : (keysOf (mapErase p m)).Nodup := by
  induction m with
  | nil => simp [mapErase, keysOf]
  | cons e rest ih =>
    obtain ⟨q, s'⟩ := e
    simp only [keysOf, List.map_cons, List.nodup_cons] at h
    by_cases hq : q = p
    · simpa only [mapErase, if_pos hq] using h.2
    · simp only [mapErase, if_neg hq, keysOf, List.map_cons, List.nodup_cons]
      refine ⟨fun hmem => h.1 (keysOf_mapErase_subset p q rest hmem), ih h.2⟩

theorem mem_of_mem_mapErase (p : Nat) (e : Nat × Nat) (m : List (Nat × Nat))
    (h : e ∈ mapErase p m) : e ∈ m := by
  induction m with
  | nil => simpa [mapErase] using h
  | cons e' rest ih =>
    obtain ⟨q, s'⟩ := e'
    by_cases hq : q = p
    · simp only [mapErase, if_pos hq] at h
      exact List.mem_cons_of_mem _ h
    · simp only [mapErase, if_neg hq, List.mem_cons] at h ⊢
      rcases h with h | h
      · exact Or.inl h
      · exact Or.inr (ih h)

theorem mapFind_mapErase_self (p : Nat) (m : List (Nat × Nat))
    (h : (keysOf m).Nodup) : mapFind p (mapErase p m) = none := by
  induction m with
  | nil => simp [mapErase, mapFind]
  | cons e rest ih =>
    obtain ⟨q, s'⟩ := e
    simp only [keysOf, List.map_cons, List.nodup_cons] at h
    by_cases hq : q = p
    · subst hq
      simp only [mapErase, eq_self_iff_true, if_true]
      exact (mapFind_eq_none_iff q rest).mpr h.1
    · simp only [mapErase, if_neg hq, mapFind, if_neg hq]
      exact ih h.2

/-!
## The allocator invariant is inductive
-/

theorem memInv_initMemState : MemInv initMemState := by
  refine ⟨?_, ?_, ?_, ?_⟩ <;> simp [MemInv, initMemState, keysOf, sumSizes]

theorem memInv_memStep (s : MemState) (op : MemOp) (h : MemInv s) :
    MemInv (memStep s op) := by
  obtain ⟨htot, hnd, h0, hsz⟩ := h
  cases op with
  | alloc size d g =>
    show MemInv (allocate_gpu_memory size d g s).2
    cases g with
    | none => exact ⟨htot, hnd, h0, hsz⟩
    | some p =>
      by_cases hp : p ≠ 0 ∧ mapFind p s.memory_map = none
      · simp only [allocate_gpu_memory, malloc_result, if_pos hp]
        refine ⟨?_, ?_, ?_, ?_⟩
        · show (s.total_memory_allocated + size % U64) % U64 =
            sumSizes ((p, size % U64) :: s.memory_map) % U64
          rw [sumSizes_cons, htot, Nat.mod_add_mod, Nat.add_comm]
        · simp only [keysOf, List.map_cons, List.nodup_cons]
          exact ⟨(mapFind_eq_none_iff p s.memory_map).mp hp.2, hnd⟩
        · simp only [keysOf, List.map_cons, List.mem_cons]
          intro hmem
          rcases hmem with h1 | h2
          · exact hp.1 h1.symm
          · exact h0 h2
        · intro e he
          rcases List.mem_cons.mp he with h1 | h2
          · subst h1
            exact Nat.mod_lt _ (by norm_num [U64])
          · exact hsz e h2
      · simp only [allocate_gpu_memory, malloc_result, if_neg hp]
        exact ⟨htot, hnd, h0, hsz⟩
  | free p =>
    show MemInv (free_gpu_memory p s).2
    by_cases hp0 : p = 0
    · simp only [free_gpu_memory, if_pos hp0]
      exact ⟨htot, hnd, h0, hsz⟩
    · cases hfind : mapFind p s.memory_map with
      | none =>
        simp only [free_gpu_memory, if_neg hp0, hfind]
        exact ⟨htot, hnd, h0, hsz⟩
      | some sz =>
        simp only [free_gpu_memory, if_neg hp0, hfind]
        have hle : sz ≤ sumSizes s.memory_map :=
          le_sumSizes_of_mapFind p sz s.memory_map hfind
        have hszlt : sz < U64 := hsz (p, sz) (mapFind_mem p sz s.memory_map hfind)
        refine ⟨?_, nodup_keysOf_mapErase p s.memory_map hnd,
          fun hmem => h0 (keysOf_mapErase_subset p 0 s.memory_map hmem),
          fun e he => hsz e (mem_of_mem_mapErase p e s.memory_map he)⟩
        show (s.total_memory_allocated + (U64 - sz)) % U64 =
          sumSizes (mapErase p s.memory_map) % U64
        rw [sumSizes_mapErase p sz s.memory_map hfind, htot, Nat.mod_add_mod]
        have heq : sumSizes s.memory_map + (U64 - sz) =
            (sumSizes s.memory_map - sz) + U64 := by omega
        rw [heq, Nat.add_mod_right]
  | clean =>
    show MemInv (cleanup s).2
    exact memInv_initMemState

theorem memInv_foldl (ops : List MemOp) (s : MemState) (h : MemInv s) :
    MemInv (ops.foldl memStep s) := by
  induction ops generalizing s with
  | nil => exact h
  | cons op rest ih =>
    exact ih (memStep s op) (memInv_memStep s op h)

theorem memInv_runOps (ops : List MemOp) : MemInv (runOps ops) :=
  memInv_foldl ops initMemState memInv_initMemState

/-!
## Forward pass and token generation (CPU path)
-/

/-- Semantics of `std::vector<T>::resize(n, v)`: keep the first `n` existing elements,
append copies of `v` if the vector was shorter than `n`. -/
def listResize (l : List Rat) (n : Nat) (v : Rat) : List Rat :=
  l.take n ++ List.replicate (n - l.length) v

/-- Function `SOVRENInferenceEngine::forward_pass(input_tokens, output_logits,
batch_size)` (`inference_engine.cpp` lines 118-125).  The body is
`output_logits.resize(config_.vocab_size * batch_size, 0.0f); return true;`
— `output_logits` is a caller-supplied in/out buffer, so its prior contents
are an input.  `input_tokens` is read only for the status print. -/
def forward_pass (cfg : ModelConfig) (input_tokens : List Int)
    (output_logits : List Rat) (batch_size : Nat) : Bool × List Rat :=
  (true, listResize output_logits (cfg.vocab_size * batch_size) 0)

/-- Function `SOVRENInferenceEngine::generate_tokens(input_tokens, output_tokens,
max_new_tokens, temperature, top_p)` (`inference_engine.cpp` lines
127-136).  The body is `output_tokens = input_tokens; return true;`; the
`max_new_tokens`, `temperature` and `top_p` arguments are read only for the
status print. -/
def generate_tokens (input_tokens : List Int) (max_new_tokens : Nat)
    (temperature top_p : Rat) : Bool × List Int :=
  (true, input_tokens)

/-!
## Sampling (modelled from the spec)

The repository declares `generate_tokens(…, temperature, top_p)` but its
sampling stage is nowhere implemented (`// TODO: Implement token
generation`); §4.6 of the spec defines the intended per-token sampling.
-/

/-- First index of the maximal element, scanning left to right
(`bi`/`bv` = best index/value so far, `i` = index of the list head). -/
def argmaxAux : List Rat → Nat → Nat → Rat → Nat
  | [], _, bi, _ => bi
  | x :: xs, i, bi, bv =>
    if bv < x then argmaxAux xs (i + 1) i x else argmaxAux xs (i + 1) bi bv

/-- The arg-max token of a logits vector: index of its (first) maximal
entry; `0` on an empty vector. -/
def argmax_token (logits : List Rat) : Nat :=
  match logits with
  | [] => 0
  | x :: xs => argmaxAux xs 1 0 x

/-- Modelled from the spec: the per-sequence sampling stage of §4.6, which
is absent from the source (`generate_tokens` is a placeholder).  Given raw
logits, `temperature == 0` is special-cased as the deterministic arg-max
policy; otherwise the logits are scaled by `1 / temperature` and handed to
the probabilistic stage (softmax, top-p truncation, renormalisation and one
random draw `r`), which is abstracted as the oracle `pick`. -/
def sample_token (logits : List Rat) (temperature top_p r : Rat)
    (pick : List Rat → Rat → Rat → Nat) : Nat :=
  if temperature = 0 then argmax_token logits
  else pick (logits.map (fun z => z / temperature)) top_p r

/-!
## Claim theorems
-/

/-- Claim C1: after `cleanup` following any sequence of
allocate/free/cleanup calls, the set of outstanding allocations
(`memory_map_`) is empty, the total-allocated-bytes counter reported by
`get_memory_usage` is zero, and the pointers handed to the host `free` are
exactly the outstanding allocations, each released exactly once (the freed
list has no duplicates). -/
theorem c1_cleanup_releases_all (ops : List MemOp) :
    (cleanup (runOps ops)).2.memory_map = [] ∧
    get_memory_usage (cleanup (runOps ops)).2 = 0 ∧
    (cleanup (runOps ops)).1 = keysOf (runOps ops).memory_map ∧
    ((cleanup (runOps ops)).1).Nodup :=
  ⟨rfl, rfl, rfl, (memInv_runOps ops).2.1⟩

/-- Claim C2, counterexample: allocate a block at address 2, free it, then
free it again.  The second call on the now non-outstanding handle is a
silent no-op — it returns through the not-found path, leaves the state
unchanged, and does not signal the `InvalidHandle` failure the claim
requires. -/
theorem c2_counterexample :
    (free_gpu_memory 2
        (free_gpu_memory 2 (runOps [MemOp.alloc 4 0 (some 2)])).2).1 =
      FreeOutcome.noopUnknown ∧
    (free_gpu_memory 2
        (free_gpu_memory 2 (runOps [MemOp.alloc 4 0 (some 2)])).2).2 =
      (free_gpu_memory 2 (runOps [MemOp.alloc 4 0 (some 2)])).2 ∧
    (free_gpu_memory 2
        (free_gpu_memory 2 (runOps [MemOp.alloc 4 0 (some 2)])).2).1 ≠
      FreeOutcome.invalidHandle := by
  decide

/-- Claim C2 as amended: the first `free_gpu_memory` on an outstanding
allocation erases the bookkeeping entry (so no later free can release it
again), and a subsequent call on the same, now non-outstanding, handle is a
silent no-op: it leaves the state unchanged and reports no `InvalidHandle`
failure (the source function returns `void` and has no error path). -/
theorem c2_amended_double_free (ops : List MemOp) (p sz : Nat)
    (h : mapFind p (runOps ops).memory_map = some sz) :
    (free_gpu_memory p (runOps ops)).1 = FreeOutcome.freed ∧
    mapFind p (free_gpu_memory p (runOps ops)).2.memory_map = none ∧
    free_gpu_memory p (free_gpu_memory p (runOps ops)).2 =
      (FreeOutcome.noopUnknown, (free_gpu_memory p (runOps ops)).2) := by
  obtain ⟨htot, hnd, h0, hsz⟩ := memInv_runOps ops
  have hpk : p ∈ keysOf (runOps ops).memory_map :=
    List.mem_map_of_mem Prod.fst (mapFind_mem p sz _ h)
  have hp0 : ¬ p = 0 := fun hp => h0 (hp ▸ hpk)
  have hstep : free_gpu_memory p (runOps ops) =
      (FreeOutcome.freed,
        ⟨mapErase p (runOps ops).memory_map,
         ((runOps ops).total_memory_allocated + (U64 - sz)) % U64⟩) := by
    simp only [free_gpu_memory, if_neg hp0, h]
  have hnone : mapFind p (mapErase p (runOps ops).memory_map) = none :=
    mapFind_mapErase_self p _ hnd
  refine ⟨by rw [hstep], by rw [hstep]; exact hnone, ?_⟩
  rw [hstep]
  simp only [free_gpu_memory, if_neg hp0, hnone]

/-- Witness for the amended C2 theorem at the concrete double-free trace. -/
theorem c2_amended_double_free_witness :
    (free_gpu_memory 2 (runOps [MemOp.alloc 4 0 (some 2)])).1 =
      FreeOutcome.freed ∧
    mapFind 2
        (free_gpu_memory 2 (runOps [MemOp.alloc 4 0 (some 2)])).2.memory_map =
      none ∧
    free_gpu_memory 2
        (free_gpu_memory 2 (runOps [MemOp.alloc 4 0 (some 2)])).2 =
      (FreeOutcome.noopUnknown,
        (free_gpu_memory 2 (runOps [MemOp.alloc 4 0 (some 2)])).2) :=
  c2_amended_double_free [MemOp.alloc 4 0 (some 2)] 2 4 (by decide)

/-- Formalisation of claim C3 at a given ceiling value: every allocation
whose size would push the cumulative allocated bytes beyond the ceiling
must fail (return the null pointer). -/
def allocRespectsCeiling (ceiling : Nat) : Prop :=
  ∀ size device_id grant s,
    get_memory_usage s + size % U64 > ceiling →
    (allocate_gpu_memory size device_id grant s).1 = none

/-- Claim C3, counterexample: `allocate_gpu_memory` checks no memory
ceiling.  At the explicit ceiling value 0, an allocation of size 1 from the
fresh engine (host grant at address 1) pushes cumulative bytes past the
ceiling yet succeeds and is recorded, so the claimed admission check does
not exist in the code. -/
theorem c3_counterexample :
    ¬ allocRespectsCeiling 0 ∧
    (allocate_gpu_memory 1 0 (some 1) initMemState).1 = some 1 ∧
    get_memory_usage initMemState + 1 % U64 > 0 ∧
    (allocate_gpu_memory 1 0 (some 1) initMemState).2.memory_map = [(1, 1)] := by
  refine ⟨?_, by decide, by decide, by decide⟩
  intro hclaim
  have h := hclaim 1 0 (some 1) initMemState (by decide)
  exact absurd h (by decide)

/-- Claim C3 as amended: the CPU-path `allocate_gpu_memory` fails (returns
the null pointer) exactly when the host `malloc` declines; a failed call
records nothing and leaves the state unchanged, and a granted call succeeds
regardless of the cumulative allocated bytes — no device memory ceiling is
consulted. -/
theorem c3_amended_alloc (s : MemState) (size device_id p : Nat) :
    allocate_gpu_memory size device_id none s = (none, s) ∧
    (∀ grant, (allocate_gpu_memory size device_id grant s).1 = none →
      (allocate_gpu_memory size device_id grant s).2 = s) ∧
    (p ≠ 0 → mapFind p s.memory_map = none →
      (allocate_gpu_memory size device_id (some p) s).1 = some p) := by
  refine ⟨rfl, ?_, ?_⟩
  · intro grant hfail
    cases grant with
    | none => rfl
    | some q =>
      by_cases hq : q ≠ 0 ∧ mapFind q s.memory_map = none
      · simp only [allocate_gpu_memory, malloc_result, if_pos hq] at hfail
        exact Option.noConfusion hfail
      · simp only [allocate_gpu_memory, malloc_result, if_neg hq]
  · intro hp hfind
    simp only [allocate_gpu_memory, malloc_result, if_pos (And.intro hp hfind)]

/-- Witness for the amended C3 theorem: a granted allocation of size 7 at
address 3 from the fresh engine succeeds. -/
theorem c3_amended_alloc_witness :
    (allocate_gpu_memory 7 0 (some 3) initMemState).1 = some 3 :=
  (c3_amended_alloc initMemState 7 0 3).2.2 (by decide) (by decide)

/-- Claim C4: evaluation of `generate_tokens` at the end-to-end scenario
input (prompt `[1, 2, 3]`, `max_new_tokens = 5`, `temperature = 0`,
`top_p = 1`).  The placeholder body copies the prompt and generates zero
additional tokens, not the five the scenario requires, and no stop token is
ever sampled. -/
theorem c4_generate_tokens_stub :
    generate_tokens [1, 2, 3] 5 0 1 = (true, [1, 2, 3]) ∧
    ((generate_tokens [1, 2, 3] 5 0 1).2.drop 3).length = 0 :=
  ⟨rfl, rfl⟩

/-- Claim C5: for every prompt, `generate_tokens` with `max_new_tokens = 0`
produces zero generated tokens — the output token stream is exactly the
prompt, with no new tokens beyond it. -/
theorem c5_zero_max_new_tokens (input_tokens : List Int)
    (temperature top_p : Rat) :
    generate_tokens input_tokens 0 temperature top_p = (true, input_tokens) ∧
    (generate_tokens input_tokens 0 temperature top_p).2.drop
      input_tokens.length = [] :=
  ⟨rfl, List.drop_length input_tokens⟩

/-- Claim C6: sampling with `temperature = 0` is the special-cased
deterministic arg-max policy — the result is the arg-max token of the
logits and is independent of the random draw and of the probabilistic
top-p stage, so two runs on the same logits always agree. -/
theorem c6_temperature_zero_argmax (logits : List Rat) (top_p top_p' r r' : Rat)
    (pick pick' : List Rat → Rat → Rat → Nat) :
    sample_token logits 0 top_p r pick = argmax_token logits ∧
    sample_token logits 0 top_p r pick =
      sample_token logits 0 top_p' r' pick' := by
  constructor <;> simp [sample_token]

/-- Claim C7, counterexample: two `forward_pass` runs on identical weights,
identical input tokens (`[]`), identical cache state and identical batch
size 1, but with different prior contents of the caller-supplied
`output_logits` buffer, produce different logits: `resize` preserves the
existing elements of the buffer, so the stale prefix leaks into the
output. -/
theorem c7_counterexample :
    (forward_pass default_model_config [] [(1 : Rat)] 1).2 ≠
      (forward_pass default_model_config [] [] 1).2 := by
  intro hEq
  have h1 : (forward_pass default_model_config [] [(1 : Rat)] 1).2.head? =
      some (1 : Rat) := rfl
  have h2 : (forward_pass default_model_config [] [] 1).2.head? =
      some (0 : Rat) := rfl
  rw [hEq, h2] at h1
  exact zero_ne_one (Option.some.inj h1)

/-- Claim C7 as amended: `forward_pass` is a deterministic function of the
batch size and the prior contents of the caller-supplied output buffer —
its logits are the buffer resized to `vocab_size * batch_size` with zero
fill — and in particular two runs with identical buffer and batch size
produce bit-identical logits even for different input tokens (which the
stub ignores). -/
theorem c7_amended_forward_pass (cfg : ModelConfig)
    (input_tokens input_tokens' : List Int) (output_logits : List Rat)
    (batch_size : Nat) :
    forward_pass cfg input_tokens output_logits batch_size =
      forward_pass cfg input_tokens' output_logits batch_size ∧
    (forward_pass cfg input_tokens output_logits batch_size).2 =
      listResize output_logits (cfg.vocab_size * batch_size) 0 :=
  ⟨rfl, rfl⟩

/-- Claim C8: the engine's configuration (the default `ModelConfig`
together with the constructor's `tensor_parallel_size_ = 1`) satisfies the
divisibility invariant: `num_attention_heads` divides `hidden_size` (the
head dimension is the integer 128), `num_key_value_heads` divides
`num_attention_heads`, and the tensor-parallel size divides
`num_attention_heads`. -/
theorem c8_config_divisibility :
    default_model_config.num_attention_heads ∣
      default_model_config.hidden_size ∧
    default_model_config.num_key_value_heads ∣
      default_model_config.num_attention_heads ∧
    tensor_parallel_size_init ∣ default_model_config.num_attention_heads ∧
    default_model_config.hidden_size /
      default_model_config.num_attention_heads = 128 :=
  ⟨⟨128, rfl⟩, ⟨8, rfl⟩, ⟨64, rfl⟩, rfl⟩

/-- Helper: the counter update of a successful free, stated against the
map's size sum. -/
theorem free_total_formula (s : MemState) (p sz : Nat) (h : MemInv s)
    (hfind : mapFind p s.memory_map = some sz) :
    (s.total_memory_allocated + (U64 - sz)) % U64 =
      (sumSizes s.memory_map - sz) % U64 := by
  obtain ⟨htot, hnd, h0, hsz⟩ := h
  have hle : sz ≤ sumSizes s.memory_map :=
    le_sumSizes_of_mapFind p sz s.memory_map hfind
  have hszlt : sz < U64 := hsz (p, sz) (mapFind_mem p sz s.memory_map hfind)
  rw [htot, Nat.mod_add_mod]
  have heq : sumSizes s.memory_map + (U64 - sz) =
      (sumSizes s.memory_map - sz) + U64 := by omega
  rw [heq, Nat.add_mod_right]

/-- Claim C10: along every CPU-path call sequence the counter
`total_memory_allocated_` equals the sum of the recorded sizes of the
entries of `memory_map_` (as `size_t` arithmetic, hence exactly whenever
that sum is representable); a failed allocation leaves both unchanged,
freeing a null or unknown pointer leaves both unchanged, a successful
allocation adds exactly the allocation's size and records it, a successful
free subtracts exactly the recorded size and erases it, and `cleanup`
resets both. -/
theorem c10_memory_accounting (ops : List MemOp) :
    get_memory_usage (runOps ops) = sumSizes (runOps ops).memory_map % U64 ∧
    (sumSizes (runOps ops).memory_map < U64 →
      get_memory_usage (runOps ops) = sumSizes (runOps ops).memory_map) ∧
    (∀ size device_id,
      allocate_gpu_memory size device_id none (runOps ops) =
        (none, runOps ops)) ∧
    free_gpu_memory 0 (runOps ops) = (FreeOutcome.noopNull, runOps ops) ∧
    (∀ p, mapFind p (runOps ops).memory_map = none →
      (free_gpu_memory p (runOps ops)).2 = runOps ops) ∧
    (∀ size device_id p, p ≠ 0 →
      mapFind p (runOps ops).memory_map = none →
      (allocate_gpu_memory size device_id (some p) (runOps ops)).2 =
        ⟨(p, size % U64) :: (runOps ops).memory_map,
         (get_memory_usage (runOps ops) + size % U64) % U64⟩) ∧
    (∀ p sz, mapFind p (runOps ops).memory_map = some sz →
      get_memory_usage (free_gpu_memory p (runOps ops)).2 =
        (sumSizes (runOps ops).memory_map - sz) % U64 ∧
      (free_gpu_memory p (runOps ops)).2.memory_map =
        mapErase p (runOps ops).memory_map) ∧
    get_memory_usage (cleanup (runOps ops)).2 = 0 := by
  have hInv := memInv_runOps ops
  obtain ⟨htot, hnd, h0, hsz⟩ := hInv
  refine ⟨htot, ?_, fun size d => rfl, rfl, ?_, ?_, ?_, rfl⟩
  · intro hlt
    simp only [get_memory_usage]
    rw [htot, Nat.mod_eq_of_lt hlt]
  · intro p hfind
    by_cases hp0 : p = 0
    · simp only [free_gpu_memory, if_pos hp0]
    · simp only [free_gpu_memory, if_neg hp0, hfind]
  · intro size d p hp hfind
    simp only [allocate_gpu_memory, malloc_result,
      if_pos (And.intro hp hfind)]
    rfl
  · intro p sz hfind
    have hpk : p ∈ keysOf (runOps ops).memory_map :=
      List.mem_map_of_mem Prod.fst (mapFind_mem p sz _ hfind)
    have hp0 : ¬ p = 0 := fun hp => h0 (hp ▸ hpk)
    constructor
    · simp only [free_gpu_memory, if_neg hp0, hfind, get_memory_usage]
      exact free_total_formula (runOps ops) p sz ⟨htot, hnd, h0, hsz⟩ hfind
    · simp only [free_gpu_memory, if_neg hp0, hfind]

/-- Witness for the C10 theorem at a concrete trace: after allocating 4
bytes at address 2, freeing the unknown address 9 leaves the state
unchanged. -/
theorem c10_memory_accounting_witness :
    (free_gpu_memory 9 (runOps [MemOp.alloc 4 0 (some 2)])).2 =
      runOps [MemOp.alloc 4 0 (some 2)] :=
  (c10_memory_accounting [MemOp.alloc 4 0 (some 2)]).2.2.2.2.1 9 (by decide)

end Sovren
